import Mathlib

/-!
Verification of the MongoDBProxy repository: a shallow embedding of
the two core modules, src/mongo_proxy/durable_cursor.py (class
DurableCursor, exception MongoReconnectFailure, module constants) and
src/mongodb_proxy.py (class Executable, class MongoProxy, function
get_methods), together with theorems settling the specification
claims about them.

Python integers are modelled as Int (they are unbounded), Python
strings as String, exceptions as an inductive type PyErr, and the
external collaborators (the pymongo collection, cursor, connection
and wall clock) as explicit oracles: lists or functions supplying the
outcome of each primitive remote call and each time observation.
Loops that in Python run until an external condition are modelled as
structural recursion over the finite oracle, returning none when the
oracle is exhausted (the analogue of running out of fuel); every
theorem about such a loop is conditioned on the loop returning a
value.
-/

namespace MDB

/-! ## Exceptions

Constructors mirror the exception classes that durable_cursor.py
imports from pymongo.errors plus the ones the two modules raise or
let escape.  In pymongo, CursorNotFound, ExecutionTimeout and
WTimeoutError are the dedicated retryable OperationFailure
subclasses; the constructor operationFailure msg stands for a generic
OperationFailure that is none of those subclasses, carrying its
args[0] message text. -/

inductive PyErr where
  | autoReconnect : PyErr
  | cursorNotFound : PyErr
  | executionTimeout : PyErr
  | wtimeoutError : PyErr
  | operationFailure (msg : String) : PyErr
  | stopIteration : PyErr
  | mongoReconnectFailure : PyErr
  | otherError (tag : Nat) : PyErr
deriving DecidableEq, Repr

/-- Membership in RETRYABLE_OPERATION_FAILURE_CLASSES, the tuple of
exception classes named in the first except clause of
DurableCursor._with_retry. -/
def isRetryableClass : PyErr → Bool
  | .autoReconnect => true
  | .cursorNotFound => true
  | .executionTimeout => true
  | .wtimeoutError => true
  | _ => false

/-! ## Module constants of durable_cursor.py -/

def MAX_RECONNECT_TIME : Int := 60
def MAX_SLEEP : Int := 5
def RECONNECT_INITIAL_DELAY : Int := 1

/-! ## DurableCursor configuration

Fields set by DurableCursor.__init__ from its keyword arguments; the
query-spec fields that are merely forwarded to collection.find
(spec, fields, sort, slave_okay, hint, kwargs) are irrelevant to the
claims and are not modelled individually. -/

structure DCConfig where
  skip : Int
  limit : Int
  tailable : Bool
  maxReconnectTime : Int
  initialReconnectInterval : Int
  disconnectOnTimeout : Bool
deriving DecidableEq, Repr

/-! ## fetch_cursor

DurableCursor.fetch_cursor computes the skip and limit passed to
collection.find from self.limit, self.skip and the current counter
value, and, when the reduced limit would be zero-or-negative,
requests limit 1 and advances the fresh cursor by one element
(next(cursor, None)).  FindPlan records exactly what reaches the
backing find call: the requested skip, the requested limit, and
whether one record is discarded immediately after opening. -/

structure FindPlan where
  skip : Int
  limit : Int
  discardOne : Bool
deriving DecidableEq, Repr

/-- Direct translation of the limit computation in
DurableCursor.fetch_cursor: the Python guard "if self.limit:" is true
exactly when self.limit is nonzero. -/
def fetchCursorPlan (selfLimit selfSkip count : Int) : FindPlan :=
  if selfLimit ≠ 0 then
    let l := selfLimit - (count - selfSkip)
    if l ≤ 0 then ⟨count, 1, true⟩ else ⟨count, l, false⟩
  else ⟨count, 0, false⟩

/-! ## alive -/

/-- Translation of the alive property of DurableCursor:
self.tailable and self.cursor.alive. -/
def dcAlive (cfg : DCConfig) (cursorAlive : Bool) : Bool :=
  cfg.tailable && cursorAlive

/-! ## try_reconnect

DurableCursor.try_reconnect is a while-True loop whose body attempts
self.reload_cursor() followed by next(self.cursor) (or returns True
when get_next is False).  Each iteration's interaction with the
outside world is one AttemptOutcome supplied by an oracle list:
  - attemptOk r: the reload (and, when get_next, the next call)
    succeeded, producing record r;
  - attemptAutoRec elapsed: AutoReconnect was raised and the
    subsequent time.time() - start observation equals elapsed;
  - attemptOther e: some exception other than AutoReconnect was
    raised (it is not caught by the except AutoReconnect clause and
    propagates out of the loop).
The loop state carried between iterations mirrors the local
variables attempts, round, interval, disconnected and max_time.  The
trace records every forced disconnect together with the values the
reset assigned, and every time.sleep duration. -/

inductive AttemptOutcome where
  | attemptOk (r : Int) : AttemptOutcome
  | attemptAutoRec (elapsed : Int) : AttemptOutcome
  | attemptOther (e : PyErr) : AttemptOutcome
deriving DecidableEq, Repr

/-- Value returned by try_reconnect: the next record when get_next is
True, the Python constant True when get_next is False, and for the
count path also the integer self.cursor.count returns on the first
try inside _with_retry. -/
inductive DCValue where
  | record (r : Int) : DCValue
  | countVal (n : Int) : DCValue
  | boolTrue : DCValue
deriving DecidableEq, Repr

instance {ε α : Type} [DecidableEq ε] [DecidableEq α] :
    DecidableEq (Except ε α) := fun x y =>
  match x, y with
  | .ok a, .ok b =>
      if h : a = b then .isTrue (by rw [h])
      else .isFalse (fun hc => h (Except.ok.inj hc))
  | .ok _, .error _ => .isFalse (fun hc => Except.noConfusion hc)
  | .error _, .ok _ => .isFalse (fun hc => Except.noConfusion hc)
  | .error e, .error f =>
      if h : e = f then .isTrue (by rw [h])
      else .isFalse (fun hc => h (Except.error.inj hc))

/-- State assigned by the forced-disconnect escalation inside
try_reconnect, recorded at the moment the reset happens. -/
structure DiscEvent where
  intervalAfter : Int
  attemptsAfter : Nat
  maxTimeAfter : Int
  roundAfter : Nat
deriving DecidableEq, Repr

structure ReconnectTrace where
  result : Except PyErr DCValue
  disconnects : List DiscEvent
  sleeps : List Int
deriving DecidableEq, Repr

/-- Body of the while-True loop of DurableCursor.try_reconnect,
recursing over the oracle of attempt outcomes.  The arguments
attempts, roundNo, interval, disconnected and maxTime are the local
variables of the Python function; after a forced disconnect the code
falls through to the shared sleep-and-increment tail, so the next
iteration starts with attempts = 1 and interval already doubled from
the reset value. -/
def tryReconnectLoop (cfg : DCConfig) (getNext : Bool)
    (roundNo : Nat) (attempts : Nat) (interval : Int)
    (disconnected : Bool) (maxTime : Int) :
    List AttemptOutcome → Option ReconnectTrace
  | [] => none
  | o :: rest =>
    match o with
    | .attemptOk r =>
        some ⟨.ok (if getNext then .record r else .boolTrue), [], []⟩
    | .attemptOther e => some ⟨.error e, [], []⟩
    | .attemptAutoRec elapsed =>
        if elapsed > maxTime then
          if !cfg.disconnectOnTimeout || disconnected then
            some ⟨.error .mongoReconnectFailure, [], []⟩
          else
            let i1 := cfg.initialReconnectInterval
            let m1 := maxTime * 2
            match tryReconnectLoop cfg getNext 2 1 (min (i1 * 2) MAX_SLEEP)
                true m1 rest with
            | none => none
            | some tr =>
                some ⟨tr.result, ⟨i1, 0, m1, 2⟩ :: tr.disconnects,
                      i1 :: tr.sleeps⟩
        else
          match tryReconnectLoop cfg getNext roundNo (attempts + 1)
              (min (interval * 2) MAX_SLEEP) disconnected maxTime rest with
          | none => none
          | some tr => some ⟨tr.result, tr.disconnects, interval :: tr.sleeps⟩

/-- Entry into DurableCursor.try_reconnect: attempts = 0, round = 1,
interval = self.initial_reconnect_interval, disconnected = False,
max_time = self.max_reconnect_time. -/
def tryReconnect (cfg : DCConfig) (getNext : Bool)
    (oracle : List AttemptOutcome) : Option ReconnectTrace :=
  tryReconnectLoop cfg getNext 1 0 cfg.initialReconnectInterval false
    cfg.maxReconnectTime oracle

/-- Once disconnected is set, no further forced disconnect happens in
the rest of the loop. -/
theorem tryReconnectLoop_disconnected_no_disc (cfg : DCConfig)
    (getNext : Bool) (oracle : List AttemptOutcome) :
    ∀ roundNo attempts interval maxTime tr,
      tryReconnectLoop cfg getNext roundNo attempts interval true maxTime
          oracle = some tr →
      tr.disconnects = [] := by
  induction oracle with
  | nil => intro _ _ _ _ _ h; simp [tryReconnectLoop] at h
  | cons o rest ih =>
    intro roundNo attempts interval maxTime tr h
    match o with
    | .attemptOk r =>
        simp only [tryReconnectLoop] at h
        cases h; rfl
    | .attemptOther e =>
        simp only [tryReconnectLoop] at h
        cases h; rfl
    | .attemptAutoRec elapsed =>
        simp only [tryReconnectLoop, Bool.or_true, if_true] at h
        by_cases ht : elapsed > maxTime
        · simp only [if_pos ht] at h
          cases h; rfl
        · simp only [if_neg ht] at h
          cases hrec : tryReconnectLoop cfg getNext roundNo (attempts + 1)
              (min (interval * 2) MAX_SLEEP) true maxTime rest with
          | none => rw [hrec] at h; cases h
          | some tr2 =>
              rw [hrec] at h
              cases h
              exact ih roundNo (attempts + 1) (min (interval * 2) MAX_SLEEP)
                maxTime tr2 hrec

/-- While disconnected is still False the loop performs at most one
forced disconnect, and the reset it performs assigns interval =
initial_reconnect_interval, attempts = 0, max_time = 2 * the maxTime
in force when the budget was exceeded, round = 2; a disconnect can
only happen when disconnect_on_timeout is enabled. -/
theorem tryReconnectLoop_disc_spec (cfg : DCConfig) (getNext : Bool)
    (oracle : List AttemptOutcome) :
    ∀ roundNo attempts interval maxTime tr,
      tryReconnectLoop cfg getNext roundNo attempts interval false maxTime
          oracle = some tr →
      tr.disconnects.length ≤ 1 ∧
      ∀ ev ∈ tr.disconnects,
        cfg.disconnectOnTimeout = true ∧
        ev.intervalAfter = cfg.initialReconnectInterval ∧
        ev.attemptsAfter = 0 ∧
        ev.maxTimeAfter = 2 * maxTime ∧
        ev.roundAfter = 2 := by
  induction oracle with
  | nil => intro _ _ _ _ _ h; simp [tryReconnectLoop] at h
  | cons o rest ih =>
    intro roundNo attempts interval maxTime tr h
    match o with
    | .attemptOk r =>
        simp only [tryReconnectLoop] at h
        cases h; simp
    | .attemptOther e =>
        simp only [tryReconnectLoop] at h
        cases h; simp
    | .attemptAutoRec elapsed =>
        simp only [tryReconnectLoop, Bool.or_false] at h
        by_cases ht : elapsed > maxTime
        · simp only [if_pos ht] at h
          cases hdot : cfg.disconnectOnTimeout with
          | false =>
              simp only [hdot, Bool.not_false, if_true] at h
              cases h; simp
          | true =>
              simp only [hdot, Bool.not_true, Bool.false_eq_true,
                if_false] at h
              cases hrec : tryReconnectLoop cfg getNext 2 1
                  (min (cfg.initialReconnectInterval * 2) MAX_SLEEP) true
                  (maxTime * 2) rest with
              | none => rw [hrec] at h; cases h
              | some tr2 =>
                  rw [hrec] at h
                  cases h
                  have hnil := tryReconnectLoop_disconnected_no_disc cfg
                    getNext rest 2 1
                    (min (cfg.initialReconnectInterval * 2) MAX_SLEEP)
                    (maxTime * 2) tr2 hrec
                  constructor
                  · simp [hnil]
                  · intro ev hev
                    simp only [hnil, List.mem_cons, List.not_mem_nil,
                      or_false] at hev
                    subst hev
                    exact ⟨rfl, rfl, rfl, by ring_nf, rfl⟩
        · simp only [if_neg ht] at h
          cases hrec : tryReconnectLoop cfg getNext roundNo (attempts + 1)
              (min (interval * 2) MAX_SLEEP) false maxTime rest with
          | none => rw [hrec] at h; cases h
          | some tr2 =>
              rw [hrec] at h
              cases h
              exact ih roundNo (attempts + 1) (min (interval * 2) MAX_SLEEP)
                maxTime tr2 hrec

/-- C3: in every terminating run of the reconnect loop there is at most
one forced disconnect; it can only happen with disconnect_on_timeout
enabled, and at the moment it happens the backoff interval is reset
to the initial reconnect interval, the attempt counter is reset to
zero, the time budget is doubled, and the round number becomes 2;
with disconnect_on_timeout disabled no disconnect ever happens. -/
theorem reconnect_disconnect_once (cfg : DCConfig) (getNext : Bool)
    (oracle : List AttemptOutcome) (tr : ReconnectTrace)
    (h : tryReconnect cfg getNext oracle = some tr) :
    tr.disconnects.length ≤ 1 ∧
    (∀ ev ∈ tr.disconnects,
      cfg.disconnectOnTimeout = true ∧
      ev.intervalAfter = cfg.initialReconnectInterval ∧
      ev.attemptsAfter = 0 ∧
      ev.maxTimeAfter = 2 * cfg.maxReconnectTime ∧
      ev.roundAfter = 2) ∧
    (cfg.disconnectOnTimeout = false → tr.disconnects = []) := by
  have hspec := tryReconnectLoop_disc_spec cfg getNext oracle 1 0
    cfg.initialReconnectInterval cfg.maxReconnectTime tr h
  refine ⟨hspec.1, hspec.2, ?_⟩
  intro hdot
  cases hnil : tr.disconnects with
  | nil => rfl
  | cons ev evs =>
      have := hspec.2 ev (by rw [hnil]; exact List.mem_cons_self ev evs)
      rw [this.1] at hdot
      cases hdot

/-- Witness for reconnect_disconnect_once: a run whose budget is
exceeded twice performs exactly one disconnect, resetting the
interval to 1, the attempt counter to 0 and doubling the budget from
60 to 120, and ends in MongoReconnectFailure. -/
theorem reconnect_disconnect_once_witness :
    tryReconnect ⟨0, 0, false, 60, 1, true⟩ true
        [.attemptAutoRec 61, .attemptAutoRec 70, .attemptAutoRec 121] =
      some ⟨.error .mongoReconnectFailure, [⟨1, 0, 120, 2⟩], [1, 2]⟩ ∧
    (⟨.error .mongoReconnectFailure, [⟨1, 0, 120, 2⟩],
        ([1, 2] : List Int)⟩ : ReconnectTrace).disconnects.length ≤ 1 :=
  ⟨by decide,
   (reconnect_disconnect_once ⟨0, 0, false, 60, 1, true⟩ true
      [.attemptAutoRec 61, .attemptAutoRec 70, .attemptAutoRec 121]
      ⟨.error .mongoReconnectFailure, [⟨1, 0, 120, 2⟩], [1, 2]⟩
      (by decide)).1⟩

/-- Generalisation over the loop state: when no oracle entry is an
attemptOther (every attempt either succeeds or raises AutoReconnect
again), an error result of the loop can only be
MongoReconnectFailure. -/
theorem tryReconnectLoop_exhaustion_err (cfg : DCConfig) (getNext : Bool)
    (oracle : List AttemptOutcome)
    (hno : ∀ o ∈ oracle, ∀ err, o ≠ .attemptOther err) :
    ∀ roundNo attempts interval disconnected maxTime tr e,
      tryReconnectLoop cfg getNext roundNo attempts interval disconnected
          maxTime oracle = some tr →
      tr.result = .error e →
      e = .mongoReconnectFailure := by
  induction oracle with
  | nil => intro _ _ _ _ _ _ _ h; simp [tryReconnectLoop] at h
  | cons o rest ih =>
    intro roundNo attempts interval disconnected maxTime tr e h hres
    have hno_rest : ∀ o ∈ rest, ∀ err, o ≠ .attemptOther err :=
      fun o2 ho2 => hno o2 (List.mem_cons_of_mem _ ho2)
    have ih2 := ih hno_rest
    match o with
    | .attemptOk r =>
        simp only [tryReconnectLoop] at h
        cases h
        simp at hres
    | .attemptOther err =>
        exact absurd rfl (hno _ (List.mem_cons_self _ _) err)
    | .attemptAutoRec elapsed =>
        simp only [tryReconnectLoop] at h
        by_cases ht : elapsed > maxTime
        · simp only [if_pos ht] at h
          by_cases hd : (!cfg.disconnectOnTimeout || disconnected) = true
          · simp only [if_pos hd] at h
            cases h
            exact (Except.error.inj hres).symm
          · simp only [if_neg hd] at h
            cases hrec : tryReconnectLoop cfg getNext 2 1
                (min (cfg.initialReconnectInterval * 2) MAX_SLEEP) true
                (maxTime * 2) rest with
            | none => rw [hrec] at h; cases h
            | some tr2 =>
                rw [hrec] at h
                cases h
                exact ih2 2 1 (min (cfg.initialReconnectInterval * 2)
                  MAX_SLEEP) true (maxTime * 2) tr2 e hrec hres
        · simp only [if_neg ht] at h
          cases hrec : tryReconnectLoop cfg getNext roundNo (attempts + 1)
              (min (interval * 2) MAX_SLEEP) disconnected maxTime rest with
          | none => rw [hrec] at h; cases h
          | some tr2 =>
              rw [hrec] at h
              cases h
              exact ih2 roundNo (attempts + 1) (min (interval * 2) MAX_SLEEP)
                disconnected maxTime tr2 e hrec hres

/-- C6: when every outcome the reconnect loop observes is either a
successful attempt or a further AutoReconnect (the persistent
transient-failure scenario), any error result of the loop, in
particular the one produced by exhausting the budget across both
rounds, is MongoReconnectFailure, never the original AutoReconnect
error. -/
theorem reconnect_exhaustion_error (cfg : DCConfig) (getNext : Bool)
    (oracle : List AttemptOutcome) (tr : ReconnectTrace) (e : PyErr)
    (hno : ∀ o ∈ oracle, ∀ err, o ≠ .attemptOther err)
    (h : tryReconnect cfg getNext oracle = some tr)
    (hres : tr.result = .error e) :
    e = .mongoReconnectFailure ∧ e ≠ .autoReconnect := by
  have he := tryReconnectLoop_exhaustion_err cfg getNext oracle hno 1 0
    cfg.initialReconnectInterval false cfg.maxReconnectTime tr e h hres
  exact ⟨he, by rw [he]; intro hc; cases hc⟩

/-- Witness for reconnect_exhaustion_error: with disconnect_on_timeout
disabled the very first budget overrun terminates the loop, and the
error raised is MongoReconnectFailure. -/
theorem reconnect_exhaustion_error_witness :
    tryReconnect ⟨0, 0, false, 60, 1, false⟩ true [.attemptAutoRec 61] =
      some ⟨.error .mongoReconnectFailure, [], []⟩ ∧
    PyErr.mongoReconnectFailure = PyErr.mongoReconnectFailure ∧
    PyErr.mongoReconnectFailure ≠ PyErr.autoReconnect :=
  ⟨by decide,
   reconnect_exhaustion_error ⟨0, 0, false, 60, 1, false⟩ true
    [.attemptAutoRec 61]
    ⟨.error .mongoReconnectFailure, [], []⟩ .mongoReconnectFailure
    (fun o ho err => by
      simp only [List.mem_singleton] at ho
      subst ho
      intro hc
      cases hc)
    (by decide) rfl⟩

/-! ## _with_retry

DurableCursor._with_retry calls f once; on an exception of one of
RETRYABLE_OPERATION_FAILURE_CLASSES it calls self.try_reconnect, on a
remaining OperationFailure it calls try_reconnect only when the text
of exc.args[0] contains the substring "interrupted at shutdown" and
re-raises otherwise, and it lets every other exception propagate.
The model takes the outcome of the single f call as an argument, and
returns alongside the overall result a flag recording whether
try_reconnect was invoked. -/

/-- Test for the Python expression "pat in s" on the character list of
s, by checking pat against every suffix. -/
def listHasInfix (pat : List Char) : List Char → Bool
  | [] => pat.isEmpty
  | c :: rest => pat.isPrefixOf (c :: rest) || listHasInfix pat rest

/-- Python substring containment: pat in s. -/
def strContains (s pat : String) : Bool :=
  listHasInfix pat.toList s.toList

/-- Message fragment tested by DurableCursor._with_retry. -/
def SHUTDOWN_MSG : String := "interrupted at shutdown"

/-- Translation of DurableCursor._with_retry.  first is the outcome of
the one direct call to f; oracle drives try_reconnect when it is
entered.  The Bool in the result records whether try_reconnect was
invoked at all. -/
def withRetry (cfg : DCConfig) (getNext : Bool)
    (first : Except PyErr DCValue) (oracle : List AttemptOutcome) :
    Option (Except PyErr DCValue × Bool) :=
  match first with
  | .ok v => some (.ok v, false)
  | .error e =>
      if isRetryableClass e then
        (tryReconnect cfg getNext oracle).map fun tr => (tr.result, true)
      else
        match e with
        | .operationFailure msg =>
            if strContains msg SHUTDOWN_MSG then
              (tryReconnect cfg getNext oracle).map fun tr => (tr.result, true)
            else some (.error (.operationFailure msg), false)
        | _ => some (.error e, false)

/-- C5: a generic OperationFailure reaching _with_retry enters the
reconnect path exactly when its message contains the substring
"interrupted at shutdown"; without that substring the failure is
re-raised unchanged and try_reconnect is never invoked. -/
theorem shutdown_substring_gate (cfg : DCConfig) (getNext : Bool)
    (msg : String) (oracle : List AttemptOutcome) :
    (strContains msg SHUTDOWN_MSG = false →
      withRetry cfg getNext (.error (.operationFailure msg)) oracle =
        some (.error (.operationFailure msg), false)) ∧
    (strContains msg SHUTDOWN_MSG = true →
      withRetry cfg getNext (.error (.operationFailure msg)) oracle =
        (tryReconnect cfg getNext oracle).map fun tr => (tr.result, true)) := by
  constructor
  · intro hno
    simp [withRetry, isRetryableClass, hno]
  · intro hyes
    simp [withRetry, isRetryableClass, hyes]

/-- Witness for shutdown_substring_gate: a message without the pattern
propagates with no reconnect attempt; one containing it reaches
try_reconnect, which here succeeds at once. -/
theorem shutdown_substring_gate_witness :
    withRetry ⟨0, 0, false, 60, 1, true⟩ true
        (.error (.operationFailure "not authorized on db")) [.attemptOk 4] =
      some (.error (.operationFailure "not authorized on db"), false) ∧
    withRetry ⟨0, 0, false, 60, 1, true⟩ true
        (.error (.operationFailure "operation was interrupted at shutdown"))
        [.attemptOk 4] =
      some (.ok (.record 4), true) :=
  ⟨(shutdown_substring_gate ⟨0, 0, false, 60, 1, true⟩ true
      "not authorized on db" [.attemptOk 4]).1 (by decide),
   by
    rw [(shutdown_substring_gate ⟨0, 0, false, 60, 1, true⟩ true
      "operation was interrupted at shutdown" [.attemptOk 4]).2 (by decide)]
    decide⟩

/-! ## next, count and the logical position counter

DurableCursor.__next__ runs _with_retry for next(self.cursor) and
increments self.counter by one only after _with_retry has returned a
record; DurableCursor.count runs _with_retry for self.cursor.count
and never touches self.counter; no other method of the class writes
self.counter after __init__ sets it to skip.  A caller-visible run is
a list of next and count invocations, each carrying the outcome of
its first direct cursor call and the oracle for its reconnect loop
should one be entered. -/

/-- Translation of DurableCursor.__next__: the returned counter is the
value of self.counter after the call, incremented only after
_with_retry has returned a record. -/
def dcNext (cfg : DCConfig) (counter : Int)
    (first : Except PyErr Int) (oracle : List AttemptOutcome) :
    Option (Except PyErr DCValue × Int) :=
  (withRetry cfg true (first.map .record) oracle).map fun res =>
    match res.1 with
    | .ok v => (.ok v, counter + 1)
    | .error e => (.error e, counter)

/-- Translation of DurableCursor.count: the counter is returned
unchanged whatever the outcome. -/
def dcCount (cfg : DCConfig) (counter : Int)
    (first : Except PyErr Int) (oracle : List AttemptOutcome) :
    Option (Except PyErr DCValue × Int) :=
  (withRetry cfg false (first.map .countVal) oracle).map
    fun res => (res.1, counter)

inductive CallerOp where
  | nextOp (first : Except PyErr Int) (oracle : List AttemptOutcome) :
      CallerOp
  | countOp (first : Except PyErr Int) (oracle : List AttemptOutcome) :
      CallerOp

/-- One when the overall outcome of a next call is a yielded record,
zero otherwise. -/
def yieldInc : Except PyErr DCValue → Nat
  | .ok _ => 1
  | .error _ => 0

/-- Run of a DurableCursor: the final counter together with the number
of next calls that returned a record (successful yields). -/
def dcRun (cfg : DCConfig) (counter : Int) :
    List CallerOp → Option (Int × Nat)
  | [] => some (counter, 0)
  | .nextOp first oracle :: rest =>
      (dcNext cfg counter first oracle).bind fun sc =>
        (dcRun cfg sc.2 rest).map fun fn => (fn.1, yieldInc sc.1 + fn.2)
  | .countOp first oracle :: rest =>
      (dcCount cfg counter first oracle).bind fun sc =>
        dcRun cfg sc.2 rest

/-- A successful next advances the counter by exactly one; a failing
next leaves it unchanged. -/
theorem dcNext_counter (cfg : DCConfig) (counter : Int)
    (first : Except PyErr Int) (oracle : List AttemptOutcome)
    (res : Except PyErr DCValue) (c1 : Int)
    (h : dcNext cfg counter first oracle = some (res, c1)) :
    (∃ v, res = .ok v ∧ c1 = counter + 1) ∨
    (∃ e, res = .error e ∧ c1 = counter) := by
  simp only [dcNext, Option.map_eq_some'] at h
  obtain ⟨⟨r2, b2⟩, hw, hf⟩ := h
  cases r2 with
  | ok v =>
      simp only [Prod.mk.injEq] at hf
      exact Or.inl ⟨v, hf.1.symm, hf.2.symm⟩
  | error e =>
      simp only [Prod.mk.injEq] at hf
      exact Or.inr ⟨e, hf.1.symm, hf.2.symm⟩

/-- A count call never changes the counter, whatever its outcome. -/
theorem dcCount_counter (cfg : DCConfig) (counter : Int)
    (first : Except PyErr Int) (oracle : List AttemptOutcome)
    (res : Except PyErr DCValue) (c1 : Int)
    (h : dcCount cfg counter first oracle = some (res, c1)) :
    c1 = counter := by
  simp only [dcCount, Option.map_eq_some'] at h
  obtain ⟨⟨r2, b2⟩, hw, hf⟩ := h
  simp only [Prod.mk.injEq] at hf
  exact hf.2.symm

/-- The counter after any run equals the starting counter plus the
number of successful yields. -/
theorem dcRun_counter (cfg : DCConfig) (ops : List CallerOp) :
    ∀ counter fin n, dcRun cfg counter ops = some (fin, n) →
      fin = counter + n := by
  induction ops with
  | nil =>
      intro counter fin n h
      simp only [dcRun, Option.some.injEq, Prod.mk.injEq] at h
      omega
  | cons op rest ih =>
    intro counter fin n h
    match op with
    | .nextOp first oracle =>
        simp only [dcRun, Option.bind_eq_some, Option.map_eq_some'] at h
        obtain ⟨⟨res, c1⟩, hstep, ⟨fin2, n2⟩, hrun, hf⟩ := h
        simp only [Prod.mk.injEq] at hf
        have hfin := ih c1 fin2 n2 hrun
        rcases dcNext_counter cfg counter first oracle res c1 hstep with
          ⟨v, hres, hc1⟩ | ⟨e, hres, hc1⟩ <;> subst hres <;>
          simp only [yieldInc] at hf <;> omega
    | .countOp first oracle =>
        simp only [dcRun, Option.bind_eq_some] at h
        obtain ⟨⟨res, c1⟩, hstep, hrun⟩ := h
        have hfin := ih c1 fin n hrun
        have hc1 := dcCount_counter cfg counter first oracle res c1 hstep
        omega

/-- C1: the logical position counter starts at the configured skip,
is advanced by exactly one per record a next call yields (and by
nothing else: failing next calls and count calls leave it unchanged),
and after a run with n successful yields it equals skip + n, so it is
never decremented. -/
theorem counter_invariant (cfg : DCConfig) (ops : List CallerOp)
    (fin : Int) (n : Nat) :
    (∀ c first oracle v c1,
      dcNext cfg c first oracle = some (.ok v, c1) → c1 = c + 1) ∧
    (∀ c first oracle e c1,
      dcNext cfg c first oracle = some (.error e, c1) → c1 = c) ∧
    (∀ c first oracle res c1,
      dcCount cfg c first oracle = some (res, c1) → c1 = c) ∧
    (dcRun cfg cfg.skip ops = some (fin, n) → fin = cfg.skip + n) := by
  refine ⟨?_, ?_, ?_, ?_⟩
  · intro c first oracle v c1 h
    rcases dcNext_counter cfg c first oracle (.ok v) c1 h with
      ⟨_, _, hc⟩ | ⟨_, hres, _⟩
    · exact hc
    · cases hres
  · intro c first oracle e c1 h
    rcases dcNext_counter cfg c first oracle (.error e) c1 h with
      ⟨_, hres, _⟩ | ⟨_, _, hc⟩
    · cases hres
    · exact hc
  · exact fun c first oracle res c1 h =>
      dcCount_counter cfg c first oracle res c1 h
  · exact fun h => dcRun_counter cfg ops cfg.skip fin n h

/-- Witness for counter_invariant: starting at skip 3, a run with one
successful yield, one count call and one next ending in StopIteration
ends with counter 4 = 3 + 1. -/
theorem counter_invariant_witness :
    dcRun ⟨3, 0, false, 60, 1, true⟩ 3
        [.nextOp (.ok 10) [], .countOp (.ok 2) [],
         .nextOp (.error .stopIteration) []] = some (4, 1) ∧
    (4 : Int) = 3 + (1 : Nat) :=
  ⟨by decide,
   (counter_invariant ⟨3, 0, false, 60, 1, true⟩
      [.nextOp (.ok 10) [], .countOp (.ok 2) [],
       .nextOp (.error .stopIteration) []] 4 1).2.2.2 (by decide)⟩

/-- C2: for a configured limit L > 0 the plan requests skip = count and
limit = L - (count - skip) when that is positive; when it is ≤ 0 the
plan requests limit exactly 1 and discards one record after opening;
the limit passed for a limited query is never the literal 0; with no
configured limit the plan requests limit 0 and discards nothing. -/
theorem fetch_cursor_limits (L s c : Int) :
    (0 < L → 0 < L - (c - s) →
      fetchCursorPlan L s c = ⟨c, L - (c - s), false⟩) ∧
    (0 < L → L - (c - s) ≤ 0 →
      fetchCursorPlan L s c = ⟨c, 1, true⟩) ∧
    (0 < L → (fetchCursorPlan L s c).limit ≠ 0) ∧
    (L = 0 → fetchCursorPlan L s c = ⟨c, 0, false⟩) ∧
    (fetchCursorPlan L s c).skip = c := by
  refine ⟨?_, ?_, ?_, ?_, ?_⟩
  · intro hL hpos
    have hne : L ≠ 0 := by omega
    simp only [fetchCursorPlan, if_pos hne]
    rw [if_neg (by omega)]
  · intro hL hnonpos
    have hne : L ≠ 0 := by omega
    simp only [fetchCursorPlan, if_pos hne]
    rw [if_pos hnonpos]
  · intro hL
    have hne : L ≠ 0 := by omega
    simp only [fetchCursorPlan, if_pos hne]
    by_cases h : L - (c - s) ≤ 0
    · rw [if_pos h]; simp
    · rw [if_neg h]; simp; omega
  · intro hL
    subst hL
    simp [fetchCursorPlan]
  · unfold fetchCursorPlan
    by_cases hne : L ≠ 0
    · rw [if_pos hne]
      by_cases h : L - (c - s) ≤ 0
      · rw [if_pos h]
      · rw [if_neg h]
    · rw [if_neg hne]

/-- Witness for fetch_cursor_limits: both limited branches and the
unlimited branch evaluated at concrete numbers. -/
theorem fetch_cursor_limits_witness :
    fetchCursorPlan 10 2 5 = ⟨5, 7, false⟩ ∧
    fetchCursorPlan 10 2 12 = ⟨12, 1, true⟩ ∧
    fetchCursorPlan 0 2 5 = ⟨5, 0, false⟩ :=
  ⟨(fetch_cursor_limits 10 2 5).1 (by decide) (by decide),
   (fetch_cursor_limits 10 2 12).2.1 (by decide) (by decide),
   (fetch_cursor_limits 0 2 5).2.2.2.1 rfl⟩

/-- C9: the alive predicate is true exactly when the cursor was
configured tailable and the backing cursor reports live status, and a
non-tailable cursor reports not-alive whatever the backing cursor
reports (in particular once it is exhausted). -/
theorem alive_characterization (cfg : DCConfig) (cursorAlive : Bool) :
    (dcAlive cfg cursorAlive = true ↔
      (cfg.tailable = true ∧ cursorAlive = true)) ∧
    (cfg.tailable = false → dcAlive cfg cursorAlive = false) := by
  constructor
  · simp [dcAlive]
  · intro h
    simp [dcAlive, h]

/-- Witness for alive_characterization: a non-tailable configuration
with a live backing cursor is reported not-alive. -/
theorem alive_characterization_witness :
    dcAlive ⟨0, 0, false, 60, 1, true⟩ true = false :=
  (alive_characterization ⟨0, 0, false, 60, 1, true⟩ true).2 rfl

/-! ## Executable (mongodb_proxy.py)

Executable wraps one remote callable.  Executable.__init__ stores
self.wait_time = wait_time or 60 (the Python or: None and 0 both fall
back to 60).  Executable.__call__ runs self.method(*args, **kwargs)
in a while-True loop: a normal return is returned; an AutoReconnect
makes it measure delta = time.time() - start and break out when
delta >= self.wait_time, otherwise sleep pow(2, i) and increment i;
any other exception is not caught and propagates; after the break one
final unguarded self.method(*args, **kwargs) call is made whose
return or exception goes to the caller verbatim.  The k-th invocation
of the method is modelled by method args k: a normal return, an
AutoReconnect together with the delta observed after it, or another
exception. -/

inductive CallOutcome where
  | callOk (v : Int) : CallOutcome
  | callAutoRec (elapsed : Int) : CallOutcome
  | callErr (e : PyErr) : CallOutcome
deriving DecidableEq, Repr

/-- Trace of one Executable.__call__ invocation: the value returned or
exception propagated, every time.sleep duration in order, and how
many times self.method was invoked. -/
structure ExecTrace where
  result : Except PyErr Int
  sleeps : List Int
  callsMade : Nat
deriving DecidableEq, Repr

/-- Outcome of the one unguarded call made after the loop breaks: its
return value or its exception, verbatim. -/
def finalCallResult : CallOutcome → Except PyErr Int
  | .callOk v => .ok v
  | .callAutoRec _ => .error .autoReconnect
  | .callErr e => .error e

/-- The while-True loop of Executable.__call__.  The loop counter i of
the Python code doubles as the invocation index, since every
iteration invokes the method exactly once and only AutoReconnect
iterations continue the loop.  Fuel bounds the number of iterations;
none means the fuel ran out before the Python loop exited. -/
def execLoop (waitTime : Int) (outcomes : Nat → CallOutcome) (i : Nat) :
    Nat → Option ExecTrace
  | 0 => none
  | fuel + 1 =>
      match outcomes i with
      | .callOk v => some ⟨.ok v, [], i + 1⟩
      | .callErr e => some ⟨.error e, [], i + 1⟩
      | .callAutoRec elapsed =>
          if elapsed ≥ waitTime then
            some ⟨finalCallResult (outcomes (i + 1)), [], i + 2⟩
          else
            (execLoop waitTime outcomes (i + 1) fuel).map fun t =>
              ⟨t.result, ((2 : Int) ^ i) :: t.sleeps, t.callsMade⟩

/-- Translation of Executable.__call__: every invocation the loop makes
receives the same args, so the outcome sequence is method args. -/
def executableCall (waitTime : Int) (method : List Int → Nat → CallOutcome)
    (args : List Int) (fuel : Nat) : Option ExecTrace :=
  execLoop waitTime (method args) 0 fuel

/-- Run of the loop from index i: n retryable failures below the
budget, then a failure at or over the budget, then the one final
unguarded call. -/
theorem execLoop_run (w : Int) (f : Nat → CallOutcome) :
    ∀ n i m,
      (∀ k, k < n → ∃ t, f (i + k) = .callAutoRec t ∧ t < w) →
      (∃ t, f (i + n) = .callAutoRec t ∧ w ≤ t) →
      execLoop w f i (n + m + 1) =
        some ⟨finalCallResult (f (i + n + 1)),
              (List.range' i n).map (fun l => (2 : Int) ^ l), i + n + 2⟩ := by
  intro n
  induction n with
  | zero =>
      intro i m _ hbreak
      obtain ⟨t, hft, hwt⟩ := hbreak
      rw [Nat.add_zero] at hft
      show execLoop w f i (0 + m + 1) = _
      simp only [execLoop, hft]
      rw [if_pos (show t ≥ w by omega)]
      simp [List.range']
  | succ n ih =>
      intro i m hlt hbreak
      obtain ⟨t0, hf0, ht0⟩ := hlt 0 (Nat.succ_pos n)
      rw [Nat.add_zero] at hf0
      have hfuel : n + 1 + m + 1 = n + m + 1 + 1 := by omega
      rw [hfuel]
      generalize hg : n + m + 1 = fuel
      simp only [execLoop, hf0]
      rw [if_neg (show ¬t0 ≥ w by omega)]
      subst hg
      have hlt2 : ∀ k, k < n → ∃ t, f (i + 1 + k) = .callAutoRec t ∧ t < w := by
        intro k hk
        have := hlt (k + 1) (by omega)
        rwa [show i + (k + 1) = i + 1 + k by omega] at this
      have hbreak2 : ∃ t, f (i + 1 + n) = .callAutoRec t ∧ w ≤ t := by
        obtain ⟨t, hft, hwt⟩ := hbreak
        exact ⟨t, by rwa [show i + 1 + n = i + (n + 1) by omega], hwt⟩
      rw [ih (i + 1) m hlt2 hbreak2]
      rw [List.range'_succ i n 1]
      have h1 : i + 1 + n + 1 = i + (n + 1) + 1 := by omega
      have h2 : i + 1 + n + 2 = i + (n + 1) + 2 := by omega
      rw [h1, h2]
      simp

/-- C4: the retry wrapper forwards the same arguments to every
invocation (the outcome sequence is method args throughout); a normal
return on the first call is returned with no sleeps and one call; an
exception other than AutoReconnect on the first call propagates with
no sleeps and no further call; and when the first n AutoReconnect
failures observe an elapsed time below the wait budget and failure n
reaches the budget, the loop sleeps pow(2, i) before retry i for
i = 0..n-1, then makes exactly one final unguarded call whose return
or exception is the overall outcome verbatim. -/
theorem executable_retry_behavior (w : Int)
    (method : List Int → Nat → CallOutcome) (args : List Int) :
    (∀ v fuel, method args 0 = .callOk v →
      executableCall w method args (fuel + 1) = some ⟨.ok v, [], 1⟩) ∧
    (∀ e fuel, method args 0 = .callErr e →
      executableCall w method args (fuel + 1) = some ⟨.error e, [], 1⟩) ∧
    (∀ n m,
      (∀ k, k < n → ∃ t, method args k = .callAutoRec t ∧ t < w) →
      (∃ t, method args n = .callAutoRec t ∧ w ≤ t) →
      executableCall w method args (n + m + 1) =
        some ⟨finalCallResult (method args (n + 1)),
              (List.range n).map (fun l => (2 : Int) ^ l), n + 2⟩) := by
  refine ⟨?_, ?_, ?_⟩
  · intro v fuel h
    rw [executableCall, execLoop, h]
  · intro e fuel h
    rw [executableCall, execLoop, h]
  · intro n m hlt hbreak
    have hlt0 : ∀ k, k < n →
        ∃ t, method args (0 + k) = .callAutoRec t ∧ t < w := by
      intro k hk
      rw [Nat.zero_add]
      exact hlt k hk
    have hbreak0 : ∃ t, method args (0 + n) = .callAutoRec t ∧ w ≤ t := by
      rw [Nat.zero_add]
      exact hbreak
    have := execLoop_run w (method args) n 0 m hlt0 hbreak0
    rw [executableCall, this]
    simp [List.range_eq_range']

/-- Witness for executable_retry_behavior: with budget 10 a method
whose first call fails at 3 seconds, second call fails at 12 seconds
and third call succeeds is retried once after a 1-second sleep, and
the final unguarded call returns 99; a method failing with a
non-transient error on the first call propagates with no retry. -/
theorem executable_retry_behavior_witness :
    executableCall 10
        (fun _ k => if k = 0 then .callAutoRec 3
                    else if k = 1 then .callAutoRec 12 else .callOk 99)
        [] 4 = some ⟨.ok 99, [1], 3⟩ ∧
    executableCall 10 (fun _ _ => .callErr (.operationFailure "bad"))
        [] 4 = some ⟨.error (.operationFailure "bad"), [], 1⟩ := by
  constructor
  · have h := (executable_retry_behavior 10
        (fun _ k => if k = 0 then .callAutoRec 3
                    else if k = 1 then .callAutoRec 12 else .callOk 99)
        []).2.2 1 2
        (by
          intro k hk
          interval_cases k
          exact ⟨3, rfl, by norm_num⟩)
        ⟨12, rfl, by norm_num⟩
    rw [h]
    decide
  · exact (executable_retry_behavior 10
      (fun _ _ => .callErr (.operationFailure "bad")) []).2.1
      (.operationFailure "bad") 3 rfl

/-! ## MongoProxy (mongodb_proxy.py)

Python values reached through the proxy are abstracted to whether
they respond to hasattr(value, "__call__"), plus an identity.
Attribute resolution on the wrapped connection
(getattr(self.conn, key)) and item resolution (self.conn[key]) are
oracles mapping the wrapped object and the key to a value. -/

inductive PyVal where
  | callableVal (id : Nat) : PyVal
  | plainVal (id : Nat) : PyVal
deriving DecidableEq, Repr

/-- Python test hasattr(v, "__call__"). -/
def isCallable : PyVal → Bool
  | .callableVal _ => true
  | .plainVal _ => false

/-- Loggers are abstract identities; defLogger stands for the module
logger logging.getLogger(__name__) that MongoProxy.__init__ obtains
when no logger argument is given. -/
structure Logger where
  id : Nat
deriving DecidableEq, Repr

def defLogger : Logger := ⟨0⟩

/-- Python expression w or d for an optional integer w: None and 0
are falsy and yield d. -/
def pyOrInt (w : Option Int) (d : Int) : Int :=
  match w with
  | none => d
  | some v => if v = 0 then d else v

/-- State of a MongoProxy instance after __init__: the wrapped
connection, self.logger (already defaulted) and self.wait_time (kept
as given, None included). -/
structure MongoProxy where
  conn : PyVal
  logger : Logger
  waitTime : Option Int
deriving DecidableEq, Repr

/-- Translation of MongoProxy.__init__(conn, logger=None,
wait_time=None). -/
def mkMongoProxy (conn : PyVal) (logger : Option Logger)
    (waitTime : Option Int) : MongoProxy :=
  ⟨conn, logger.getD defLogger, waitTime⟩

/-- State of an Executable instance after __init__(method, logger,
wait_time): self.wait_time = wait_time or 60. -/
structure Executable where
  method : PyVal
  logger : Logger
  waitTime : Int
deriving DecidableEq, Repr

def mkExecutable (method : PyVal) (logger : Logger)
    (waitTime : Option Int) : Executable :=
  ⟨method, logger, pyOrInt waitTime 60⟩

/-- Python test name.startswith("_") for a one-character pattern:
the first character is an underscore. -/
def startsWithUnderscore (s : String) : Bool :=
  match s.toList with
  | [] => false
  | c :: _ => c == '_'

/-- One object of the pymongo library surface, as seen by
get_methods: its dir listing with each name's callability. -/
structure LibObject where
  members : List (String × Bool)
deriving DecidableEq, Repr

/-- Translation of get_methods(*objs) in mongodb_proxy.py: the names
over all objects that do not start with an underscore and whose value
is callable.  EXECUTABLE_MONGO_METHODS is this applied to
pymongo.collection.Collection, pymongo.Connection and pymongo. -/
def getMethods (objs : List LibObject) : List String :=
  objs.foldr
    (fun o acc =>
      ((o.members.filter fun m => !startsWithUnderscore m.1 && m.2).map
        Prod.fst) ++ acc)
    []

/-- Result of one attribute or item access on a MongoProxy. -/
inductive AccessResult where
  | executableRes (e : Executable) : AccessResult
  | proxyRes (p : MongoProxy) : AccessResult
  | rawRes (v : PyVal) : AccessResult
deriving DecidableEq, Repr

/-- The branch an access took: distinguishes wrap-as-retrying-wrapper,
wrap-as-new-proxy and pass-through. -/
def resultKind : AccessResult → Nat
  | .executableRes _ => 0
  | .proxyRes _ => 1
  | .rawRes _ => 2

/-- Translation of MongoProxy.__getattr__: a callable attr whose name
is in EXECUTABLE_MONGO_METHODS becomes Executable(attr, self.logger,
self.wait_time); any other callable becomes MongoProxy(attr) with
default logger and wait_time; anything else is returned as is. -/
def proxyGetattr (env : PyVal → String → PyVal) (execNames : List String)
    (p : MongoProxy) (key : String) : AccessResult :=
  let attr := env p.conn key
  if isCallable attr then
    if key ∈ execNames then
      .executableRes (mkExecutable attr p.logger p.waitTime)
    else
      .proxyRes (mkMongoProxy attr none none)
  else
    .rawRes attr

/-- Translation of MongoProxy.__getitem__: a callable item becomes
MongoProxy(item) unconditionally; anything else is returned as is. -/
def proxyGetitem (itemEnv : PyVal → String → PyVal) (p : MongoProxy)
    (key : String) : AccessResult :=
  let item := itemEnv p.conn key
  if isCallable item then
    .proxyRes (mkMongoProxy item none none)
  else
    .rawRes item

/-- Membership in the get_methods result is membership, for some of
the introspected objects, of an underscore-free callable member of
that name. -/
theorem getMethods_mem (objs : List LibObject) (key : String) :
    key ∈ getMethods objs ↔
      ∃ o ∈ objs, (key, true) ∈ o.members ∧ startsWithUnderscore key = false := by
  induction objs with
  | nil => simp [getMethods]
  | cons o rest ih =>
      simp only [getMethods, List.foldr_cons, List.mem_append,
        List.mem_map, List.mem_filter, List.mem_cons]
      rw [getMethods] at ih
      rw [ih]
      constructor
      · rintro (⟨⟨name, c⟩, ⟨hm, hfc⟩, hname⟩ | ⟨o2, ho2, hmem⟩)
        · subst hname
          simp only [Bool.and_eq_true, Bool.not_eq_eq_eq_not,
            Bool.not_true] at hfc
          refine ⟨o, Or.inl rfl, ?_, hfc.1⟩
          have : c = true := hfc.2
          subst this
          exact hm
        · exact ⟨o2, Or.inr ho2, hmem⟩
      · rintro ⟨o2, ho2 | ho2, hmem, hus⟩
        · subst ho2
          exact Or.inl ⟨(key, true), ⟨hmem, by simp [hus]⟩, rfl⟩
        · exact Or.inr ⟨o2, ho2, hmem, hus⟩

/-- C7: member access on the proxy wraps a callable attribute whose
name get_methods collected (an underscore-free callable member of the
introspected client library objects) in an Executable carrying the
proxy's logger and wait_time; wraps any other callable attribute in a
fresh recursive MongoProxy; and passes a non-callable attribute
through unchanged. -/
theorem getattr_dispatch (env : PyVal → String → PyVal)
    (libObjs : List LibObject) (p : MongoProxy) (key : String) :
    (isCallable (env p.conn key) = true → key ∈ getMethods libObjs →
      proxyGetattr env (getMethods libObjs) p key =
        .executableRes (mkExecutable (env p.conn key) p.logger p.waitTime)) ∧
    (isCallable (env p.conn key) = true → key ∉ getMethods libObjs →
      proxyGetattr env (getMethods libObjs) p key =
        .proxyRes (mkMongoProxy (env p.conn key) none none)) ∧
    (isCallable (env p.conn key) = false →
      proxyGetattr env (getMethods libObjs) p key =
        .rawRes (env p.conn key)) ∧
    (key ∈ getMethods libObjs ↔
      ∃ o ∈ libObjs, (key, true) ∈ o.members ∧
        startsWithUnderscore key = false) := by
  refine ⟨?_, ?_, ?_, getMethods_mem libObjs key⟩
  · intro hc hmem
    simp [proxyGetattr, hc, hmem]
  · intro hc hmem
    simp [proxyGetattr, hc, hmem]
  · intro hc
    simp [proxyGetattr, hc]

/-- Witness for getattr_dispatch: a library exposing the callable
member insert and the non-callable member max_bson_size; accessing
insert on a proxy returns the retrying wrapper, accessing an unknown
callable returns a nested proxy, and accessing a plain value returns
it unchanged. -/
theorem getattr_dispatch_witness :
    proxyGetattr
        (fun _ k => if k = "insert" then .callableVal 1
                    else if k = "watch" then .callableVal 2
                    else .plainVal 3)
        (getMethods [⟨[("insert", true), ("_id", true),
          ("max_bson_size", false)]⟩])
        (mkMongoProxy (.plainVal 9) (some ⟨7⟩) (some 20)) "insert" =
      .executableRes (mkExecutable (.callableVal 1) ⟨7⟩ (some 20)) ∧
    proxyGetattr
        (fun _ k => if k = "insert" then .callableVal 1
                    else if k = "watch" then .callableVal 2
                    else .plainVal 3)
        (getMethods [⟨[("insert", true), ("_id", true),
          ("max_bson_size", false)]⟩])
        (mkMongoProxy (.plainVal 9) (some ⟨7⟩) (some 20)) "watch" =
      .proxyRes (mkMongoProxy (.callableVal 2) none none) ∧
    proxyGetattr
        (fun _ k => if k = "insert" then .callableVal 1
                    else if k = "watch" then .callableVal 2
                    else .plainVal 3)
        (getMethods [⟨[("insert", true), ("_id", true),
          ("max_bson_size", false)]⟩])
        (mkMongoProxy (.plainVal 9) (some ⟨7⟩) (some 20))
        "max_bson_size" =
      .rawRes (.plainVal 3) :=
  ⟨(getattr_dispatch
      (fun _ k => if k = "insert" then .callableVal 1
                  else if k = "watch" then .callableVal 2
                  else .plainVal 3)
      [⟨[("insert", true), ("_id", true), ("max_bson_size", false)]⟩]
      (mkMongoProxy (.plainVal 9) (some ⟨7⟩) (some 20)) "insert").1
    (by decide) (by decide),
   (getattr_dispatch
      (fun _ k => if k = "insert" then .callableVal 1
                  else if k = "watch" then .callableVal 2
                  else .plainVal 3)
      [⟨[("insert", true), ("_id", true), ("max_bson_size", false)]⟩]
      (mkMongoProxy (.plainVal 9) (some ⟨7⟩) (some 20)) "watch").2.1
    (by decide) (by decide),
   (getattr_dispatch
      (fun _ k => if k = "insert" then .callableVal 1
                  else if k = "watch" then .callableVal 2
                  else .plainVal 3)
      [⟨[("insert", true), ("_id", true), ("max_bson_size", false)]⟩]
      (mkMongoProxy (.plainVal 9) (some ⟨7⟩) (some 20))
      "max_bson_size").2.2.1 (by decide)⟩

/-- Counterexample to C8 as stated: with the same resolved value (the
callable item 1) and the name insert listed in the executable method
set, member access classifies the access as a retrying wrapper while
indexed access classifies it as a nested proxy, so indexed access
does not apply the classification a member access of that name would
apply. -/
theorem getitem_classification_counterexample :
    proxyGetitem (fun _ _ => .callableVal 1)
        (mkMongoProxy (.plainVal 9) none (some 5)) "insert" =
      .proxyRes (mkMongoProxy (.callableVal 1) none none) ∧
    proxyGetattr (fun _ _ => .callableVal 1) ["insert"]
        (mkMongoProxy (.plainVal 9) none (some 5)) "insert" =
      .executableRes (mkExecutable (.callableVal 1) defLogger (some 5)) ∧
    resultKind
        (proxyGetitem (fun _ _ => .callableVal 1)
          (mkMongoProxy (.plainVal 9) none (some 5)) "insert") ≠
      resultKind
        (proxyGetattr (fun _ _ => .callableVal 1) ["insert"]
          (mkMongoProxy (.plainVal 9) none (some 5)) "insert") := by
  refine ⟨by decide, by decide, by decide⟩

/-- C8 amended: indexed access follows the invokable/non-invokable
split of member access, but wraps every invokable item as a fresh
recursive proxy, never as a retrying wrapper, even when the name is a
known remote-operation name; a non-invokable item is returned
unchanged. -/
theorem getitem_split_amended (itemEnv : PyVal → String → PyVal)
    (p : MongoProxy) (key : String) :
    (isCallable (itemEnv p.conn key) = true →
      proxyGetitem itemEnv p key =
        .proxyRes (mkMongoProxy (itemEnv p.conn key) none none)) ∧
    (isCallable (itemEnv p.conn key) = false →
      proxyGetitem itemEnv p key = .rawRes (itemEnv p.conn key)) := by
  constructor
  · intro hc
    simp [proxyGetitem, hc]
  · intro hc
    simp [proxyGetitem, hc]

/-- Witness for getitem_split_amended: a callable item is wrapped as a
nested proxy and a plain item passes through. -/
theorem getitem_split_amended_witness :
    proxyGetitem (fun _ _ => .callableVal 4)
        (mkMongoProxy (.plainVal 9) none none) "db" =
      .proxyRes (mkMongoProxy (.callableVal 4) none none) ∧
    proxyGetitem (fun _ _ => .plainVal 4)
        (mkMongoProxy (.plainVal 9) none none) "db" =
      .rawRes (.plainVal 4) :=
  ⟨(getitem_split_amended (fun _ _ => .callableVal 4)
      (mkMongoProxy (.plainVal 9) none none) "db").1 (by decide),
   (getitem_split_amended (fun _ _ => .plainVal 4)
      (mkMongoProxy (.plainVal 9) none none) "db").2 (by decide)⟩

/-- C10: every nested proxy produced by member or indexed access is
constructed with logger None and wait_time None, hence carries the
fresh default logger and no wait budget regardless of the root
proxy's configuration, and any retrying wrapper later produced
through it carries the default logger and the effective default
60-second wait budget. -/
theorem nested_proxy_defaults (env itemEnv : PyVal → String → PyVal)
    (execNames : List String) (p : MongoProxy) (key : String)
    (q : MongoProxy)
    (h : proxyGetattr env execNames p key = .proxyRes q ∨
         proxyGetitem itemEnv p key = .proxyRes q) :
    q.logger = defLogger ∧ q.waitTime = none ∧
    ∀ (env2 : PyVal → String → PyVal) (names2 : List String)
      (key2 : String) (e : Executable),
      proxyGetattr env2 names2 q key2 = .executableRes e →
      e.logger = defLogger ∧ e.waitTime = 60 := by
  have hq : q.logger = defLogger ∧ q.waitTime = none := by
    rcases h with h | h
    · by_cases hc : isCallable (env p.conn key) = true
      · by_cases hmem : key ∈ execNames
        · simp [proxyGetattr, hc, hmem] at h
        · simp only [proxyGetattr, hc, if_true, if_neg hmem,
            AccessResult.proxyRes.injEq] at h
          rw [← h]
          exact ⟨rfl, rfl⟩
      · simp [proxyGetattr, Bool.not_eq_true _ ▸ hc] at h
    · by_cases hc : isCallable (itemEnv p.conn key) = true
      · simp only [proxyGetitem, hc, if_true,
          AccessResult.proxyRes.injEq] at h
        rw [← h]
        exact ⟨rfl, rfl⟩
      · simp [proxyGetitem, hc] at h
  refine ⟨hq.1, hq.2, ?_⟩
  intro env2 names2 key2 e he
  by_cases hc : isCallable (env2 q.conn key2) = true
  · by_cases hmem : key2 ∈ names2
    · simp only [proxyGetattr, hc, if_true, if_pos hmem,
        AccessResult.executableRes.injEq] at he
      rw [← he]
      exact ⟨hq.1, by rw [hq.2]; rfl⟩
    · simp [proxyGetattr, hc, hmem] at he
  · simp [proxyGetattr, hc] at he

/-- Witness for nested_proxy_defaults: a root proxy configured with
logger 7 and wait budget 5 hands out a nested proxy with the default
logger and no budget, and the wrapper for find reached through that
nested proxy uses the default logger and the 60-second budget. -/
theorem nested_proxy_defaults_witness :
    (mkMongoProxy (.callableVal 2) none none).logger = defLogger ∧
    (mkMongoProxy (.callableVal 2) none none).waitTime = none ∧
    ∀ (env2 : PyVal → String → PyVal) (names2 : List String)
      (key2 : String) (e : Executable),
      proxyGetattr env2 names2 (mkMongoProxy (.callableVal 2) none none)
          key2 = .executableRes e →
      e.logger = defLogger ∧ e.waitTime = 60 :=
  nested_proxy_defaults (fun _ _ => .callableVal 2)
    (fun _ _ => .plainVal 0) [] (mkMongoProxy (.plainVal 9) (some ⟨7⟩)
    (some 5)) "db" (mkMongoProxy (.callableVal 2) none none)
    (Or.inl (by decide))

end MDB
